import Mathlib

/-!
Shallow embedding of the notion-like backend (`src/main.py` together with the
entity schemas of `src/schemas.py`).  The Document Store (module `database`)
and the identifier codec (`bson.ObjectId`) are external collaborators of the
repository; they are modelled from the spec (§2, §4.1) as an in-memory
record store with an access counter and a 24-hex-character key format.
-/

/-- Error outcomes of an operation: `invalidId` is the 400 "Invalid id"
raised by `ensure_object_id`, `notFound k` is the 404 "k not found". -/
inductive Err where
  | invalidId : Err
  | notFound : String → Err
deriving DecidableEq, Repr

/-- Modelled from the spec (§4.1): a character of the storage engine's
hexadecimal key alphabet. -/
def isHexChar (c : Char) : Bool :=
  c.isDigit || (('a' ≤ c) && (c ≤ 'f')) || (('A' ≤ c) && (c ≤ 'F'))

/-- Modelled from the spec (§4.1): a client-supplied identifier is
syntactically valid for the storage engine's key space (bson ObjectId)
iff it is a 24-character hexadecimal token. -/
def isValidObjectId (s : String) : Bool :=
  s.length == 24 && s.toList.all isHexChar

/-- `ensure_object_id` of `src/main.py`: parse the raw string into the
engine's native key, or fail with the 400 "Invalid id" error.  The native
key is modelled as the validated hex string itself (bson's case
normalisation of the hex digits is abstracted away; every identifier in
the theorems below is compared verbatim). -/
def ensure_object_id (s : String) : Except Err String :=
  if isValidObjectId s then .ok s else .error .invalidId

/-- Workspace record as stored (schema `Workspace` of `src/schemas.py`):
generated `_id` plus `name`. -/
structure Workspace where
  id : String
  name : String
deriving DecidableEq, Repr

/-- Page record as stored (schema `Page`): generated `_id`,
`workspace_id` kept as the raw string, and `title`.  `title` is
`Optional[str]` in the route model `CreatePage`, so the stored value can
be null; it is modelled as `Option String`. -/
structure Page where
  id : String
  workspace_id : String
  title : Option String
deriving DecidableEq, Repr

/-- Block record as stored (schema `Block`): generated `_id`, `page_id`
kept as the raw string, `type`, `content`, `checked`
(`Optional[bool]` in `CreateBlock`, hence `Option Bool`), `position`. -/
structure Block where
  id : String
  page_id : String
  type : String
  content : String
  checked : Option Bool
  position : Int
deriving DecidableEq, Repr

/-- Modelled from the spec (§2): the Document Store's state — one
insertion-ordered list per collection (`workspace`, `page`, `block`) —
plus a counter of executed store accesses (inserts, finds, updates,
deletes), as suggested by §8 for checking "before any store access". -/
structure DB where
  workspaces : List Workspace
  pages : List Page
  blocks : List Block
  accesses : Nat
deriving DecidableEq, Repr

/-- Update the first element satisfying `p` with `f`, returning the new
list and whether a match was found (Mongo `update_one` semantics). -/
def updateFirstWith (p : α → Bool) (f : α → α) : List α → List α × Bool
  | [] => ([], false)
  | x :: xs =>
    if p x then (f x :: xs, true)
    else
      let r := updateFirstWith p f xs
      (x :: r.1, r.2)

/-- Delete the first element satisfying `p`, returning the new list and
whether an element was removed (Mongo `delete_one` semantics). -/
def deleteFirstWith (p : α → Bool) : List α → List α × Bool
  | [] => ([], false)
  | x :: xs =>
    if p x then (xs, true)
    else
      let r := deleteFirstWith p xs
      (x :: r.1, r.2)

/-- Modelled from the spec (§2): store primitive — bump the access
counter by one. -/
def bump (db : DB) : DB :=
  { db with accesses := db.accesses + 1 }

/-- Modelled from the spec (§2): `insert("workspace", fields)`. -/
def insertWorkspace (db : DB) (w : Workspace) : DB :=
  { bump db with workspaces := db.workspaces ++ [w] }

/-- Modelled from the spec (§2): `insert("page", fields)`. -/
def insertPage (db : DB) (p : Page) : DB :=
  { bump db with pages := db.pages ++ [p] }

/-- Modelled from the spec (§2): `insert("block", fields)`. -/
def insertBlock (db : DB) (b : Block) : DB :=
  { bump db with blocks := db.blocks ++ [b] }

/-- Modelled from the spec (§2): `find_one` on the `workspace`
collection by native `_id`. -/
def findWorkspace (db : DB) (oid : String) : DB × Option Workspace :=
  (bump db, db.workspaces.find? (fun w => w.id == oid))

/-- Modelled from the spec (§2): `find_one` on the `page` collection by
native `_id`. -/
def findPage (db : DB) (oid : String) : DB × Option Page :=
  (bump db, db.pages.find? (fun p => p.id == oid))

/-- Modelled from the spec (§2): `find_one` on the `block` collection by
native `_id`. -/
def findBlock (db : DB) (oid : String) : DB × Option Block :=
  (bump db, db.blocks.find? (fun b => b.id == oid))

/-- Modelled from the spec (§2): `find("page", filt)` returning matching
records in the store's natural (insertion) order. -/
def getPages (db : DB) (filt : Page → Bool) : DB × List Page :=
  (bump db, db.pages.filter filt)

/-- Modelled from the spec (§2): `find("workspace", {})`. -/
def getWorkspaces (db : DB) : DB × List Workspace :=
  (bump db, db.workspaces)

/-- Modelled from the spec (§2): `find("block", filt)` returning matching
records in the store's natural (insertion) order. -/
def getBlocks (db : DB) (filt : Block → Bool) : DB × List Block :=
  (bump db, db.blocks.filter filt)

/-- Modelled from the spec (§2): `update_one` on `page` by `_id` with a
`$set` document (applied as `f`), reporting whether a record matched. -/
def updateOnePage (db : DB) (oid : String) (f : Page → Page) : DB × Bool :=
  let r := updateFirstWith (fun p => p.id == oid) f db.pages
  ({ bump db with pages := r.1 }, r.2)

/-- Modelled from the spec (§2): `update_one` on `block` by `_id`. -/
def updateOneBlock (db : DB) (oid : String) (f : Block → Block) : DB × Bool :=
  let r := updateFirstWith (fun b => b.id == oid) f db.blocks
  ({ bump db with blocks := r.1 }, r.2)

/-- Modelled from the spec (§2): `delete_one` on `page` by `_id`,
reporting whether a record was removed. -/
def deleteOnePage (db : DB) (oid : String) : DB × Bool :=
  let r := deleteFirstWith (fun p => p.id == oid) db.pages
  ({ bump db with pages := r.1 }, r.2)

/-- Modelled from the spec (§2): `delete_one` on `block` by `_id`. -/
def deleteOneBlock (db : DB) (oid : String) : DB × Bool :=
  let r := deleteFirstWith (fun b => b.id == oid) db.blocks
  ({ bump db with blocks := r.1 }, r.2)

/-- Modelled from the spec (§2): `delete_many` on `block` by a filter
(removes every matching record). -/
def deleteManyBlocks (db : DB) (filt : Block → Bool) : DB :=
  { bump db with blocks := db.blocks.filter (fun b => !filt b) }

/-- Request model `CreateWorkspace` of `src/main.py`. -/
structure CreateWorkspace where
  name : String
deriving DecidableEq, Repr

/-- Request model `CreatePage` of `src/main.py`: `workspace_id : str`,
`title : Optional[str] = "Untitled"`. -/
structure CreatePage where
  workspace_id : String
  title : Option String := some "Untitled"
deriving DecidableEq, Repr

/-- Request model `CreateBlock` of `src/main.py`: `page_id : str`,
`type : str = "text"`, `content : str = ""`,
`checked : Optional[bool] = False`, `position : int = 0`. -/
structure CreateBlock where
  page_id : String
  type : String := "text"
  content : String := ""
  checked : Option Bool := some false
  position : Int := 0
deriving DecidableEq, Repr

/-- Request model `UpdatePage` of `src/main.py`: `title` absent (or
explicitly null, which `model_dump` renders identically) is `none`. -/
structure UpdatePage where
  title : Option String := none
deriving DecidableEq, Repr

/-- Request model `UpdateBlock` of `src/main.py`: each field defaults to
`None`; an explicit null in the payload also surfaces as `none`. -/
structure UpdateBlock where
  content : Option String := none
  checked : Option Bool := none
  position : Option Int := none
deriving DecidableEq, Repr

/-- A value of the dynamic partial-update dictionary built by
`update_page` / `update_block`. -/
inductive FieldValue where
  | str : String → FieldValue
  | bool : Bool → FieldValue
  | int : Int → FieldValue
deriving DecidableEq, Repr

/-- The dictionary comprehension of `update_page`
(line 140 of `src/main.py`): keep exactly the fields whose value is not
`None`. -/
def pageUpdateMap (u : UpdatePage) : List (String × FieldValue) :=
  match u.title with
  | some t => [("title", .str t)]
  | none => []

/-- The dictionary comprehension of `update_block`
(line 184 of `src/main.py`): keep exactly the fields whose value is not
`None`, in the field order of the model. -/
def blockUpdateMap (u : UpdateBlock) : List (String × FieldValue) :=
  (match u.content with
   | some c => [("content", .str c)]
   | none => []) ++
  (match u.checked with
   | some c => [("checked", .bool c)]
   | none => []) ++
  (match u.position with
   | some n => [("position", .int n)]
   | none => [])

/-- `$set` of one dictionary entry on a stored Page record. -/
def setPageField (p : Page) (kv : String × FieldValue) : Page :=
  match kv with
  | ("title", .str t) => { p with title := some t }
  | _ => p

/-- `$set` of one dictionary entry on a stored Block record. -/
def setBlockField (b : Block) (kv : String × FieldValue) : Block :=
  match kv with
  | ("content", .str c) => { b with content := c }
  | ("checked", .bool c) => { b with checked := some c }
  | ("position", .int n) => { b with position := n }
  | _ => b

/-- Effect of `$set` with the whole partial-update dictionary on a
stored Page record. -/
def applyUpdatePage (u : UpdatePage) (p : Page) : Page :=
  (pageUpdateMap u).foldl setPageField p

/-- Effect of `$set` with the whole partial-update dictionary on a
stored Block record. -/
def applyUpdateBlock (u : UpdateBlock) (b : Block) : Block :=
  (blockUpdateMap u).foldl setBlockField b

/-- Result of an update endpoint: either the bare echoed identifier
(the `return` on empty update) or the serialized re-fetched record. -/
inductive UpdateResult (α : Type) where
  | bareId : String → UpdateResult α
  | record : Option α → UpdateResult α
deriving DecidableEq, Repr

/-- `create_workspace` of `src/main.py`: insert and echo the payload
with the generated id (`newId` stands for the store-generated key). -/
def create_workspace (db : DB) (newId : String) (payload : CreateWorkspace) :
    DB × Workspace :=
  let w : Workspace := { id := newId, name := payload.name }
  (insertWorkspace db w, w)

/-- `list_workspaces` of `src/main.py`. -/
def list_workspaces (db : DB) : DB × List Workspace :=
  getWorkspaces db

/-- `create_page` of `src/main.py`: parse `workspace_id`, check the
Workspace exists, insert the Page (with the raw `workspace_id` string)
and echo it with the generated id. -/
def create_page (db : DB) (newId : String) (payload : CreatePage) :
    DB × Except Err Page :=
  match ensure_object_id payload.workspace_id with
  | .error e => (db, .error e)
  | .ok oid =>
    let r := findWorkspace db oid
    match r.2 with
    | none => (r.1, .error (.notFound "Workspace"))
    | some _ =>
      let pg : Page :=
        { id := newId, workspace_id := payload.workspace_id, title := payload.title }
      (insertPage r.1 pg, .ok pg)

/-- `list_pages` of `src/main.py`: the filter is
`{"workspace_id": workspace_id} if workspace_id else {}` — Python
truthiness, so `None` and the empty string both select the empty
filter. -/
def list_pages (db : DB) (workspace_id : Option String) : DB × List Page :=
  match workspace_id with
  | none => getPages db (fun _ => true)
  | some w =>
    if w == "" then getPages db (fun _ => true)
    else getPages db (fun p => p.workspace_id == w)

/-- `update_page` of `src/main.py`: empty partial update returns the
bare id before any parsing or store access; otherwise parse the id,
`update_one` with `$set`, 404 when nothing matched, then re-fetch. -/
def update_page (db : DB) (page_id : String) (payload : UpdatePage) :
    DB × Except Err (UpdateResult Page) :=
  if pageUpdateMap payload = [] then (db, .ok (.bareId page_id))
  else
    match ensure_object_id page_id with
    | .error e => (db, .error e)
    | .ok oid =>
      let r := updateOnePage db oid (applyUpdatePage payload)
      if r.2 = false then (r.1, .error (.notFound "Page"))
      else
        let f := findPage r.1 oid
        (f.1, .ok (.record f.2))

/-- `delete_page` of `src/main.py`: parse the id, delete the Page,
then unconditionally cascade-delete every Block whose `page_id` field
equals the raw `page_id` string, and only then report 404 when the Page
delete removed nothing. -/
def delete_page (db : DB) (page_id : String) : DB × Except Err Unit :=
  match ensure_object_id page_id with
  | .error e => (db, .error e)
  | .ok oid =>
    let r := deleteOnePage db oid
    let db2 := deleteManyBlocks r.1 (fun b => b.page_id == page_id)
    if r.2 = false then (db2, .error (.notFound "Page"))
    else (db2, .ok ())

/-- `create_block` of `src/main.py`: parse `page_id`, check the Page
exists, insert the Block (with the raw `page_id` string) and echo it
with the generated id. -/
def create_block (db : DB) (newId : String) (payload : CreateBlock) :
    DB × Except Err Block :=
  match ensure_object_id payload.page_id with
  | .error e => (db, .error e)
  | .ok oid =>
    let r := findPage db oid
    match r.2 with
    | none => (r.1, .error (.notFound "Page"))
    | some _ =>
      let bl : Block :=
        { id := newId, page_id := payload.page_id, type := payload.type,
          content := payload.content, checked := payload.checked,
          position := payload.position }
      (insertBlock r.1 bl, .ok bl)

/-- `list_blocks` of `src/main.py`: fetch the Blocks whose `page_id`
equals the raw string, then `items.sort(key=lambda x: x.get("position", 0))`
— an ascending stable sort by `position` (every stored Block record has
the field, so the `0` default never applies). -/
def list_blocks (db : DB) (page_id : String) : DB × List Block :=
  let r := getBlocks db (fun b => b.page_id == page_id)
  (r.1, r.2.mergeSort (fun a b => a.position ≤ b.position))

/-- `update_block` of `src/main.py`: same shape as `update_page`. -/
def update_block (db : DB) (block_id : String) (payload : UpdateBlock) :
    DB × Except Err (UpdateResult Block) :=
  if blockUpdateMap payload = [] then (db, .ok (.bareId block_id))
  else
    match ensure_object_id block_id with
    | .error e => (db, .error e)
    | .ok oid =>
      let r := updateOneBlock db oid (applyUpdateBlock payload)
      if r.2 = false then (r.1, .error (.notFound "Block"))
      else
        let f := findBlock r.1 oid
        (f.1, .ok (.record f.2))

/-- `delete_block` of `src/main.py`: parse the id, delete, 404 when
nothing was removed.  No cascade. -/
def delete_block (db : DB) (block_id : String) : DB × Except Err Unit :=
  match ensure_object_id block_id with
  | .error e => (db, .error e)
  | .ok oid =>
    let r := deleteOneBlock db oid
    if r.2 = false then (r.1, .error (.notFound "Block"))
    else (r.1, .ok ())

/-- One API operation, with any store-generated id resolved inside the
description (`newId`). -/
inductive Op where
  | createWorkspace (newId : String) (p : CreateWorkspace)
  | listWorkspaces
  | createPage (newId : String) (p : CreatePage)
  | listPages (w : Option String)
  | updatePage (id : String) (u : UpdatePage)
  | deletePage (id : String)
  | createBlock (newId : String) (p : CreateBlock)
  | listBlocks (pid : String)
  | updateBlock (id : String) (u : UpdateBlock)
  | deleteBlock (id : String)
deriving DecidableEq, Repr

/-- State transition of one operation (the store state it leaves behind,
whatever the response was). -/
def step (db : DB) : Op → DB
  | .createWorkspace newId p => (create_workspace db newId p).1
  | .listWorkspaces => (list_workspaces db).1
  | .createPage newId p => (create_page db newId p).1
  | .listPages w => (list_pages db w).1
  | .updatePage id u => (update_page db id u).1
  | .deletePage id => (delete_page db id).1
  | .createBlock newId p => (create_block db newId p).1
  | .listBlocks pid => (list_blocks db pid).1
  | .updateBlock id u => (update_block db id u).1
  | .deleteBlock id => (delete_block db id).1

/-- Run a sequence of operations. -/
def run (db : DB) (ops : List Op) : DB :=
  ops.foldl step db

/-- The creation-time fields of a Block that the API never updates:
id, `page_id` and `type`. -/
def blockSkel (b : Block) : String × String × String :=
  (b.id, b.page_id, b.type)

/-- The creation-time fields of a Page that the API never updates:
id and `workspace_id`. -/
def pageSkel (p : Page) : String × String :=
  (p.id, p.workspace_id)

/-- The immutable-field triples of the Blocks a sequence of operations
may create (in order). -/
def createdBlockSkels : List Op → List (String × String × String)
  | [] => []
  | .createBlock newId p :: ops => (newId, p.page_id, p.type) :: createdBlockSkels ops
  | _ :: ops => createdBlockSkels ops

/-- The immutable-field pairs of the Pages a sequence of operations may
create (in order). -/
def createdPageSkels : List Op → List (String × String)
  | [] => []
  | .createPage newId p :: ops => (newId, p.workspace_id) :: createdPageSkels ops
  | _ :: ops => createdPageSkels ops

/-! ### Generic lemmas about the store primitives -/

theorem updateFirstWith_snd_false {p : α → Bool} {f : α → α} {l : List α}
    (h : (updateFirstWith p f l).2 = false) : (updateFirstWith p f l).1 = l := by
  induction l with
  | nil => rfl
  | cons a xs ih =>
    cases ha : p a with
    | true => simp [updateFirstWith, ha] at h
    | false =>
      simp only [updateFirstWith, ha, Bool.false_eq_true, if_false] at h ⊢
      rw [ih h]

theorem updateFirstWith_snd_true {p : α → Bool} {f : α → α} {l : List α}
    (h : (updateFirstWith p f l).2 = true) :
    ∃ l1 x l2, l = l1 ++ x :: l2 ∧ (∀ y ∈ l1, p y = false) ∧ p x = true ∧
      (updateFirstWith p f l).1 = l1 ++ f x :: l2 := by
  induction l with
  | nil => simp [updateFirstWith] at h
  | cons a xs ih =>
    cases ha : p a with
    | true =>
      exact ⟨[], a, xs, rfl, by simp, ha, by simp [updateFirstWith, ha]⟩
    | false =>
      simp only [updateFirstWith, ha, Bool.false_eq_true, if_false] at h
      obtain ⟨l1, x, l2, hl, h1, hx, hu⟩ := ih h
      refine ⟨a :: l1, x, l2, by rw [hl]; rfl, ?_, hx, ?_⟩
      · intro y hy
        rcases List.mem_cons.mp hy with hy | hy
        · subst hy; exact ha
        · exact h1 y hy
      · simp only [updateFirstWith, ha, Bool.false_eq_true, if_false, hu]
        rfl

theorem deleteFirstWith_fst_sublist (p : α → Bool) (l : List α) :
    List.Sublist (deleteFirstWith p l).1 l := by
  induction l with
  | nil => exact List.Sublist.refl _
  | cons a xs ih =>
    cases ha : p a with
    | true =>
      simp only [deleteFirstWith, ha, if_true]
      exact List.Sublist.cons a (List.Sublist.refl xs)
    | false =>
      simp only [deleteFirstWith, ha, Bool.false_eq_true, if_false]
      exact List.Sublist.cons₂ a ih

theorem updateFirstWith_fst_map {p : α → Bool} {f : α → α} (g : α → β)
    (hg : ∀ x, g (f x) = g x) (l : List α) :
    ((updateFirstWith p f l).1.map g) = l.map g := by
  induction l with
  | nil => rfl
  | cons a xs ih =>
    cases ha : p a with
    | true => simp [updateFirstWith, ha, hg]
    | false => simp [updateFirstWith, ha, ih]

theorem filter_not_self_eq_nil (p : α → Bool) (l : List α) :
    (l.filter (fun a => !p a)).filter p = [] := by
  induction l with
  | nil => rfl
  | cons a xs ih =>
    cases ha : p a <;> simp [List.filter_cons, ha, ih]

/-! ### Claim theorems -/

/-- C5: an Update Page or Update Block call whose partial-update mapping is
empty succeeds immediately with the bare echoed identifier, for every
identifier string (parsing is never reached), leaving the store — data and
access counter alike — untouched. -/
theorem empty_update_short_circuit (db : DB) (id : String)
    (up : UpdatePage) (ub : UpdateBlock) :
    (pageUpdateMap up = [] → update_page db id up = (db, .ok (.bareId id))) ∧
    (blockUpdateMap ub = [] → update_block db id ub = (db, .ok (.bareId id))) := by
  constructor
  · intro h
    unfold update_page
    rw [if_pos h]
  · intro h
    unfold update_block
    rw [if_pos h]

/-- Witness for C5 at a concrete store, identifier and empty payloads. -/
theorem empty_update_short_circuit_witness :
    pageUpdateMap { title := none } = [] ∧
    blockUpdateMap { content := none, checked := none, position := none } = [] ∧
    update_page ⟨[], [], [], 0⟩ "x" { title := none } =
      (⟨[], [], [], 0⟩, .ok (.bareId "x")) ∧
    update_block ⟨[], [], [], 0⟩ "x" { content := none, checked := none, position := none } =
      (⟨[], [], [], 0⟩, .ok (.bareId "x")) :=
  ⟨rfl, rfl,
   (empty_update_short_circuit ⟨[], [], [], 0⟩ "x" { title := none }
      { content := none, checked := none, position := none }).1 rfl,
   (empty_update_short_circuit ⟨[], [], [], 0⟩ "x" { title := none }
      { content := none, checked := none, position := none }).2 rfl⟩

/-- C10: a field supplied as null surfaces as `none` (exactly as pydantic's
`model_dump` renders it) and is excluded from the partial-update mapping, so
an all-null payload behaves as the empty update, returning the bare id with
no store access; a field is in the mapping exactly when a non-null value is
present. -/
theorem null_treated_as_absent (db : DB) (id : String)
    (u : UpdateBlock) (up : UpdatePage) :
    update_page db id { title := none } = (db, .ok (.bareId id)) ∧
    update_block db id { content := none, checked := none, position := none } =
      (db, .ok (.bareId id)) ∧
    (("content" ∈ (blockUpdateMap u).map Prod.fst) ↔ u.content.isSome = true) ∧
    (("checked" ∈ (blockUpdateMap u).map Prod.fst) ↔ u.checked.isSome = true) ∧
    (("position" ∈ (blockUpdateMap u).map Prod.fst) ↔ u.position.isSome = true) ∧
    (("title" ∈ (pageUpdateMap up).map Prod.fst) ↔ up.title.isSome = true) := by
  refine ⟨?_, ?_, ?_, ?_, ?_, ?_⟩
  · have h : pageUpdateMap { title := none } = [] := rfl
    unfold update_page
    rw [if_pos h]
  · have h : blockUpdateMap { content := none, checked := none, position := none } = [] := rfl
    unfold update_block
    rw [if_pos h]
  · rcases u with ⟨c, ch, pos⟩
    cases c <;> cases ch <;> cases pos <;> simp [blockUpdateMap]
  · rcases u with ⟨c, ch, pos⟩
    cases c <;> cases ch <;> cases pos <;> simp [blockUpdateMap]
  · rcases u with ⟨c, ch, pos⟩
    cases c <;> cases ch <;> cases pos <;> simp [blockUpdateMap]
  · rcases up with ⟨t⟩
    cases t <;> simp [pageUpdateMap]

/-- C4 counterexample: `update_page` with a malformed identifier (the empty
string, which is not a valid ObjectId) and an empty payload does NOT fail
InvalidIdentifier — it succeeds with the bare id, because the empty-update
short-circuit precedes identifier parsing. -/
theorem invalid_id_counterexample :
    isValidObjectId "" = false ∧
    update_page ⟨[], [], [], 0⟩ "" { title := none } =
      (⟨[], [], [], 0⟩, .ok (.bareId "")) := by
  constructor
  · decide
  · have h : pageUpdateMap { title := none } = [] := rfl
    unfold update_page
    rw [if_pos h]

/-- C4 (amended): Create Page, Delete Page, Create Block and Delete Block
reject every malformed identifier with InvalidIdentifier before any store
access (state and access counter untouched); Update Page and Update Block do
so exactly when their partial-update mapping is non-empty — the empty
mapping short-circuits before parsing. -/
theorem invalid_id_rejected_before_store
    (db : DB) (s newId : String) (t : Option String) (cb : CreateBlock)
    (up : UpdatePage) (ub : UpdateBlock)
    (h : isValidObjectId s = false) :
    create_page db newId { workspace_id := s, title := t } = (db, .error .invalidId) ∧
    delete_page db s = (db, .error .invalidId) ∧
    (cb.page_id = s → create_block db newId cb = (db, .error .invalidId)) ∧
    delete_block db s = (db, .error .invalidId) ∧
    (pageUpdateMap up ≠ [] → update_page db s up = (db, .error .invalidId)) ∧
    (blockUpdateMap ub ≠ [] → update_block db s ub = (db, .error .invalidId)) := by
  have he : ensure_object_id s = .error .invalidId := by
    simp [ensure_object_id, h]
  refine ⟨?_, ?_, ?_, ?_, ?_, ?_⟩
  · simp [create_page, he]
  · simp [delete_page, he]
  · intro hc
    simp [create_block, hc, he]
  · simp [delete_block, he]
  · intro hu
    unfold update_page
    rw [if_neg hu, he]
  · intro hu
    unfold update_block
    rw [if_neg hu, he]

/-- Witness for C4 (amended) at the malformed identifier "zz", a concrete
store and concrete non-empty update payloads. -/
theorem invalid_id_rejected_before_store_witness :
    isValidObjectId "zz" = false ∧
    delete_page ⟨[], [], [], 0⟩ "zz" = (⟨[], [], [], 0⟩, .error .invalidId) ∧
    pageUpdateMap { title := some "T" } ≠ [] ∧
    update_page ⟨[], [], [], 0⟩ "zz" { title := some "T" } =
      (⟨[], [], [], 0⟩, .error .invalidId) :=
  ⟨by decide,
   (invalid_id_rejected_before_store ⟨[], [], [], 0⟩ "zz" "n" none
      { page_id := "zz" } { title := some "T" } { content := some "c" }
      (by decide)).2.1,
   by decide,
   (invalid_id_rejected_before_store ⟨[], [], [], 0⟩ "zz" "n" none
      { page_id := "zz" } { title := some "T" } { content := some "c" }
      (by decide)).2.2.2.2.1 (by decide)⟩

/-- C9 counterexample: List Pages with the supplied workspace_id "" (a
falsy string in Python) returns ALL Pages — here a Page whose
`workspace_id` is "w1", not "" — instead of the Pages whose `workspace_id`
equals the supplied string. -/
theorem list_pages_empty_string_counterexample :
    (list_pages ⟨[], [⟨"p1", "w1", some "T"⟩], [], 0⟩ (some "")).2 =
      [⟨"p1", "w1", some "T"⟩] ∧
    ([(⟨"p1", "w1", some "T"⟩ : Page)].filter (fun p => p.workspace_id == "")) = [] := by
  constructor
  · decide
  · decide

/-- C9 (amended): for every supplied non-empty workspace_id string, List
Pages returns exactly the Pages whose `workspace_id` field equals that
string (plain string comparison, no parsing or existence check); when the
parameter is absent — or the empty string, which Python truthiness treats
as absent — all Pages are returned. -/
theorem list_pages_filter_amended (db : DB) (w : String) (h : w ≠ "") :
    (list_pages db (some w)).2 = db.pages.filter (fun p => p.workspace_id == w) ∧
    (list_pages db none).2 = db.pages ∧
    (list_pages db (some "")).2 = db.pages := by
  have hw : (w == "") = false := by
    simp [h]
  refine ⟨?_, ?_, ?_⟩
  · simp [list_pages, getPages, hw]
  · simp [list_pages, getPages]
  · simp [list_pages, getPages]

/-- Witness for C9 (amended) at a concrete store and the non-empty
workspace_id "w1". -/
theorem list_pages_filter_amended_witness :
    ("w1" : String) ≠ "" ∧
    (list_pages ⟨[], [⟨"p1", "w1", some "T"⟩, ⟨"p2", "w2", some "U"⟩], [], 0⟩
        (some "w1")).2 =
      ([⟨"p1", "w1", some "T"⟩, ⟨"p2", "w2", some "U"⟩] : List Page).filter
        (fun p => p.workspace_id == "w1") :=
  ⟨by decide,
   (list_pages_filter_amended ⟨[], [⟨"p1", "w1", some "T"⟩, ⟨"p2", "w2", some "U"⟩], [], 0⟩
      "w1" (by decide)).1⟩

/-- C3: Create Page whose workspace_id parses but matches no stored
Workspace, and Create Block whose page_id parses but matches no stored
Page, fail NotFound and insert nothing — all three collections are exactly
as before (only the access counter of the failed lookup moved). -/
theorem create_checks_parent_exists (db : DB) (newId : String)
    (pp : CreatePage) (bp : CreateBlock) :
    (isValidObjectId pp.workspace_id = true →
      (∀ w ∈ db.workspaces, w.id ≠ pp.workspace_id) →
      (create_page db newId pp).2 = .error (.notFound "Workspace") ∧
      (create_page db newId pp).1.pages = db.pages ∧
      (create_page db newId pp).1.workspaces = db.workspaces ∧
      (create_page db newId pp).1.blocks = db.blocks) ∧
    (isValidObjectId bp.page_id = true →
      (∀ p ∈ db.pages, p.id ≠ bp.page_id) →
      (create_block db newId bp).2 = .error (.notFound "Page") ∧
      (create_block db newId bp).1.pages = db.pages ∧
      (create_block db newId bp).1.workspaces = db.workspaces ∧
      (create_block db newId bp).1.blocks = db.blocks) := by
  constructor
  · intro h hn
    have he : ensure_object_id pp.workspace_id = .ok pp.workspace_id := by
      simp [ensure_object_id, h]
    have hf : db.workspaces.find? (fun w => w.id == pp.workspace_id) = none := by
      rw [List.find?_eq_none]
      intro w hw
      simp [hn w hw]
    refine ⟨?_, ?_, ?_, ?_⟩ <;> simp [create_page, he, findWorkspace, hf, bump]
  · intro h hn
    have he : ensure_object_id bp.page_id = .ok bp.page_id := by
      simp [ensure_object_id, h]
    have hf : db.pages.find? (fun p => p.id == bp.page_id) = none := by
      rw [List.find?_eq_none]
      intro p hp
      simp [hn p hp]
    refine ⟨?_, ?_, ?_, ?_⟩ <;> simp [create_block, he, findPage, hf, bump]

/-- Witness for C3 at a concrete empty store and parseable ids. -/
theorem create_checks_parent_exists_witness :
    isValidObjectId "aaaaaaaaaaaaaaaaaaaaaaaa" = true ∧
    (create_page ⟨[], [], [], 0⟩ "n" { workspace_id := "aaaaaaaaaaaaaaaaaaaaaaaa" }).2 =
      .error (.notFound "Workspace") ∧
    (create_block ⟨[], [], [], 0⟩ "n" { page_id := "aaaaaaaaaaaaaaaaaaaaaaaa" }).2 =
      .error (.notFound "Page") :=
  ⟨by decide,
   ((create_checks_parent_exists ⟨[], [], [], 0⟩ "n"
      { workspace_id := "aaaaaaaaaaaaaaaaaaaaaaaa" }
      { page_id := "aaaaaaaaaaaaaaaaaaaaaaaa" }).1 (by decide) (by simp)).1,
   ((create_checks_parent_exists ⟨[], [], [], 0⟩ "n"
      { workspace_id := "aaaaaaaaaaaaaaaaaaaaaaaa" }
      { page_id := "aaaaaaaaaaaaaaaaaaaaaaaa" }).2 (by decide) (by simp)).1⟩

/-- C1: for every parseable page_id, Delete Page removes every Block whose
`page_id` equals that raw string — the state it leaves behind has no such
Block and List Blocks on it returns the empty list — and the call never
fails InvalidIdentifier; when no Page record was removed the cascade has
still run and the call then fails NotFound("Page"). -/
theorem delete_page_cascades (db : DB) (pid : String)
    (h : isValidObjectId pid = true) :
    (delete_page db pid).1.blocks.filter (fun b => b.page_id == pid) = [] ∧
    (list_blocks (delete_page db pid).1 pid).2 = [] ∧
    (delete_page db pid).2 ≠ .error .invalidId ∧
    ((deleteFirstWith (fun p => p.id == pid) db.pages).2 = false →
      (delete_page db pid).2 = .error (.notFound "Page")) := by
  have he : ensure_object_id pid = .ok pid := by
    simp [ensure_object_id, h]
  refine ⟨?_, ?_, ?_, ?_⟩
  · simp only [delete_page, he, deleteOnePage, deleteManyBlocks, bump]
    split <;> simp [filter_not_self_eq_nil]
  · simp only [delete_page, he, deleteOnePage, deleteManyBlocks, bump, list_blocks, getBlocks]
    split <;> simp [filter_not_self_eq_nil]
  · simp only [delete_page, he, deleteOnePage, deleteManyBlocks, bump]
    split <;> simp
  · intro hd
    simp [delete_page, he, deleteOnePage, deleteManyBlocks, bump, hd]

/-- Witness for C1: a store holding one Block of the deleted page and one
of another page, a parseable page_id whose Page record is absent — the
cascade still empties the page's Blocks and the call reports NotFound. -/
theorem delete_page_cascades_witness :
    isValidObjectId "aaaaaaaaaaaaaaaaaaaaaaaa" = true ∧
    (delete_page
        ⟨[], [], [⟨"b1", "aaaaaaaaaaaaaaaaaaaaaaaa", "text", "", some false, 0⟩,
                  ⟨"b2", "cccccccccccccccccccccccc", "text", "", some false, 0⟩], 0⟩
        "aaaaaaaaaaaaaaaaaaaaaaaa").1.blocks.filter
        (fun b => b.page_id == "aaaaaaaaaaaaaaaaaaaaaaaa") = [] ∧
    (list_blocks
        (delete_page
          ⟨[], [], [⟨"b1", "aaaaaaaaaaaaaaaaaaaaaaaa", "text", "", some false, 0⟩,
                    ⟨"b2", "cccccccccccccccccccccccc", "text", "", some false, 0⟩], 0⟩
          "aaaaaaaaaaaaaaaaaaaaaaaa").1 "aaaaaaaaaaaaaaaaaaaaaaaa").2 = [] :=
  ⟨by decide,
   (delete_page_cascades
      ⟨[], [], [⟨"b1", "aaaaaaaaaaaaaaaaaaaaaaaa", "text", "", some false, 0⟩,
                ⟨"b2", "cccccccccccccccccccccccc", "text", "", some false, 0⟩], 0⟩
      "aaaaaaaaaaaaaaaaaaaaaaaa" (by decide)).1,
   (delete_page_cascades
      ⟨[], [], [⟨"b1", "aaaaaaaaaaaaaaaaaaaaaaaa", "text", "", some false, 0⟩,
                ⟨"b2", "cccccccccccccccccccccccc", "text", "", some false, 0⟩], 0⟩
      "aaaaaaaaaaaaaaaaaaaaaaaa" (by decide)).2.1⟩

/-- The stored Blocks carrying a given position value, among those of a
given filtered list, survive the stable sort in their original relative
order: sorting keeps each equal-position fibre of the list intact. -/
theorem mergeSort_position_filter_eq (l : List Block) (k : Int) :
    ((l.mergeSort (fun a b => a.position ≤ b.position)).filter
        (fun b => b.position == k)) =
      l.filter (fun b => b.position == k) := by
  have trans : ∀ (a b c : Block),
      (fun a b : Block => decide (a.position ≤ b.position)) a b →
      (fun a b : Block => decide (a.position ≤ b.position)) b c →
      (fun a b : Block => decide (a.position ≤ b.position)) a c := by
    intro a b c hab hbc
    simp only [decide_eq_true_eq] at *
    omega
  have total : ∀ (a b : Block),
      ((fun a b : Block => decide (a.position ≤ b.position)) a b ||
       (fun a b : Block => decide (a.position ≤ b.position)) b a) = true := by
    intro a b
    simp only [Bool.or_eq_true, decide_eq_true_eq]
    omega
  have hsub0 : List.Sublist (l.filter (fun b => b.position == k)) l :=
    List.filter_sublist l
  have hpw : (l.filter (fun b => b.position == k)).Pairwise
      (fun a b : Block => decide (a.position ≤ b.position)) := by
    apply List.pairwise_of_forall_mem_list
    intro a ha b hb
    have ha' := (List.mem_filter.mp ha).2
    have hb' := (List.mem_filter.mp hb).2
    simp only [beq_iff_eq] at ha' hb'
    simp [ha', hb']
  have h3 := List.sublist_mergeSort trans total hpw hsub0
  have h4 := h3.filter (fun b => b.position == k)
  rw [List.filter_eq_self.mpr (fun a ha => (List.mem_filter.mp ha).2)] at h4
  have h5 : ((l.mergeSort (fun a b => a.position ≤ b.position)).filter
      (fun b => b.position == k)).length =
      (l.filter (fun b => b.position == k)).length :=
    ((List.mergeSort_perm l _).filter _).length_eq
  exact (h4.eq_of_length h5.symm).symm

/-- C2: List Blocks returns exactly the Blocks whose `page_id` equals the
given string (a permutation of the store's filtered insertion-ordered
list), non-decreasing in `position`, and stably: for every position value,
the blocks carrying it keep their relative insertion order. -/
theorem list_blocks_sorted_stable (db : DB) (pid : String) :
    (list_blocks db pid).2.Pairwise (fun a b => a.position ≤ b.position) ∧
    List.Perm (list_blocks db pid).2
      (db.blocks.filter (fun b => b.page_id == pid)) ∧
    (∀ k : Int, (list_blocks db pid).2.filter (fun b => b.position == k) =
      (db.blocks.filter (fun b => b.page_id == pid)).filter
        (fun b => b.position == k)) := by
  have trans : ∀ (a b c : Block),
      (fun a b : Block => decide (a.position ≤ b.position)) a b →
      (fun a b : Block => decide (a.position ≤ b.position)) b c →
      (fun a b : Block => decide (a.position ≤ b.position)) a c := by
    intro a b c hab hbc
    simp only [decide_eq_true_eq] at *
    omega
  have total : ∀ (a b : Block),
      ((fun a b : Block => decide (a.position ≤ b.position)) a b ||
       (fun a b : Block => decide (a.position ≤ b.position)) b a) = true := by
    intro a b
    simp only [Bool.or_eq_true, decide_eq_true_eq]
    omega
  refine ⟨?_, ?_, ?_⟩
  · have h := List.sorted_mergeSort trans total
      (db.blocks.filter (fun b => b.page_id == pid))
    simp only [list_blocks, getBlocks]
    exact h.imp (fun hab => of_decide_eq_true hab)
  · simp only [list_blocks, getBlocks]
    exact List.mergeSort_perm _ _
  · intro k
    simp only [list_blocks, getBlocks]
    exact mergeSort_position_filter_eq _ k

/-- `$set` with a partial-update dictionary never touches a Block's id. -/
theorem applyUpdateBlock_id (u : UpdateBlock) (b : Block) :
    (applyUpdateBlock u b).id = b.id := by
  rcases u with ⟨c, ch, pos⟩
  cases c <;> cases ch <;> cases pos <;>
    simp [applyUpdateBlock, blockUpdateMap, setBlockField]

/-- `$set` with a partial-update dictionary never touches a Block's
`page_id`. -/
theorem applyUpdateBlock_page_id (u : UpdateBlock) (b : Block) :
    (applyUpdateBlock u b).page_id = b.page_id := by
  rcases u with ⟨c, ch, pos⟩
  cases c <;> cases ch <;> cases pos <;>
    simp [applyUpdateBlock, blockUpdateMap, setBlockField]

/-- `$set` with a partial-update dictionary never touches a Block's
`type`. -/
theorem applyUpdateBlock_type (u : UpdateBlock) (b : Block) :
    (applyUpdateBlock u b).type = b.type := by
  rcases u with ⟨c, ch, pos⟩
  cases c <;> cases ch <;> cases pos <;>
    simp [applyUpdateBlock, blockUpdateMap, setBlockField]

/-- An absent `content` field leaves the stored content unchanged. -/
theorem applyUpdateBlock_content_none {u : UpdateBlock} (b : Block)
    (h : u.content = none) : (applyUpdateBlock u b).content = b.content := by
  rcases u with ⟨c, ch, pos⟩
  cases c <;> cases ch <;> cases pos <;>
    simp_all [applyUpdateBlock, blockUpdateMap, setBlockField]

/-- An absent `checked` field leaves the stored checked flag unchanged. -/
theorem applyUpdateBlock_checked_none {u : UpdateBlock} (b : Block)
    (h : u.checked = none) : (applyUpdateBlock u b).checked = b.checked := by
  rcases u with ⟨c, ch, pos⟩
  cases c <;> cases ch <;> cases pos <;>
    simp_all [applyUpdateBlock, blockUpdateMap, setBlockField]

/-- An absent `position` field leaves the stored position unchanged. -/
theorem applyUpdateBlock_position_none {u : UpdateBlock} (b : Block)
    (h : u.position = none) : (applyUpdateBlock u b).position = b.position := by
  rcases u with ⟨c, ch, pos⟩
  cases c <;> cases ch <;> cases pos <;>
    simp_all [applyUpdateBlock, blockUpdateMap, setBlockField]

/-- `$set` with a page partial-update dictionary never touches the id. -/
theorem applyUpdatePage_id (u : UpdatePage) (p : Page) :
    (applyUpdatePage u p).id = p.id := by
  rcases u with ⟨t⟩
  cases t <;> simp [applyUpdatePage, pageUpdateMap, setPageField]

/-- `$set` with a page partial-update dictionary never touches
`workspace_id`. -/
theorem applyUpdatePage_workspace_id (u : UpdatePage) (p : Page) :
    (applyUpdatePage u p).workspace_id = p.workspace_id := by
  rcases u with ⟨t⟩
  cases t <;> simp [applyUpdatePage, pageUpdateMap, setPageField]

/-- An absent `title` field leaves the stored title unchanged. -/
theorem applyUpdatePage_title_none {u : UpdatePage} (p : Page)
    (h : u.title = none) : (applyUpdatePage u p).title = p.title := by
  rcases u with ⟨t⟩
  cases t <;> simp_all [applyUpdatePage, pageUpdateMap, setPageField]

/-- C6: the partial-update mapping holds exactly the updatable fields whose
supplied value is present — a field set to a falsy value (checked = false,
content = "", position = 0, title = "") is included, only absent fields are
excluded — and an update supplying checked = false really sets the stored
checked field to false. -/
theorem update_map_exactly_present_fields (u : UpdateBlock) (up : UpdatePage)
    (b : Block) :
    ((blockUpdateMap u).map Prod.fst =
      (if u.content.isSome then ["content"] else []) ++
      (if u.checked.isSome then ["checked"] else []) ++
      (if u.position.isSome then ["position"] else [])) ∧
    ((pageUpdateMap up).map Prod.fst =
      (if up.title.isSome then ["title"] else [])) ∧
    ((("checked", FieldValue.bool false) ∈ blockUpdateMap u) ↔
      u.checked = some false) ∧
    (("content", FieldValue.str "") ∈ blockUpdateMap u ↔ u.content = some "") ∧
    (("position", FieldValue.int 0) ∈ blockUpdateMap u ↔ u.position = some 0) ∧
    (("title", FieldValue.str "") ∈ pageUpdateMap up ↔ up.title = some "") ∧
    (u.checked = some false → (applyUpdateBlock u b).checked = some false) := by
  refine ⟨?_, ?_, ?_, ?_, ?_, ?_, ?_⟩
  · rcases u with ⟨c, ch, pos⟩
    cases c <;> cases ch <;> cases pos <;> simp [blockUpdateMap]
  · rcases up with ⟨t⟩
    cases t <;> simp [pageUpdateMap]
  · rcases u with ⟨c, ch, pos⟩
    cases c <;> cases ch <;> cases pos <;> simp [blockUpdateMap]
  · rcases u with ⟨c, ch, pos⟩
    cases c <;> cases ch <;> cases pos <;> simp [blockUpdateMap, eq_comm]
  · rcases u with ⟨c, ch, pos⟩
    cases c <;> cases ch <;> cases pos <;> simp [blockUpdateMap, eq_comm]
  · rcases up with ⟨t⟩
    cases t <;> simp [pageUpdateMap, eq_comm]
  · intro h
    rcases u with ⟨c, ch, pos⟩
    cases h
    cases c <;> cases pos <;>
      simp [applyUpdateBlock, blockUpdateMap, setBlockField]

/-- Witness for C6 at a concrete payload and Block. -/
theorem update_map_exactly_present_fields_witness :
    (({ content := none, checked := some false, position := none } : UpdateBlock).checked
        = some false) ∧
    (applyUpdateBlock { content := none, checked := some false, position := none }
        ⟨"b", "p", "todo", "c", some true, 3⟩).checked = some false :=
  ⟨rfl,
   (update_map_exactly_present_fields
      { content := none, checked := some false, position := none }
      { title := none } ⟨"b", "p", "todo", "c", some true, 3⟩).2.2.2.2.2.2 rfl⟩

/-- C7: a successful re-fetching partial update rewrites exactly the first
stored record whose id matches — the surrounding records, the other two
collections, the record's id and its parent-reference fields (a Block's
`page_id` and `type`, a Page's `workspace_id`) are untouched, and every
field the payload leaves absent keeps its previous value; the returned
record is the updated one. -/
theorem update_frame :
    (∀ (db : DB) (id : String) (u : UpdateBlock) (db2 : DB) (r : Option Block),
      update_block db id u = (db2, .ok (.record r)) →
      ∃ l1 b l2,
        db.blocks = l1 ++ b :: l2 ∧
        db2.blocks = l1 ++ applyUpdateBlock u b :: l2 ∧
        db2.pages = db.pages ∧
        db2.workspaces = db.workspaces ∧
        r = some (applyUpdateBlock u b) ∧
        (applyUpdateBlock u b).id = b.id ∧
        (applyUpdateBlock u b).page_id = b.page_id ∧
        (applyUpdateBlock u b).type = b.type ∧
        (u.content = none → (applyUpdateBlock u b).content = b.content) ∧
        (u.checked = none → (applyUpdateBlock u b).checked = b.checked) ∧
        (u.position = none → (applyUpdateBlock u b).position = b.position)) ∧
    (∀ (db : DB) (id : String) (up : UpdatePage) (db2 : DB) (r : Option Page),
      update_page db id up = (db2, .ok (.record r)) →
      ∃ l1 p l2,
        db.pages = l1 ++ p :: l2 ∧
        db2.pages = l1 ++ applyUpdatePage up p :: l2 ∧
        db2.blocks = db.blocks ∧
        db2.workspaces = db.workspaces ∧
        r = some (applyUpdatePage up p) ∧
        (applyUpdatePage up p).id = p.id ∧
        (applyUpdatePage up p).workspace_id = p.workspace_id ∧
        (up.title = none → (applyUpdatePage up p).title = p.title)) := by
  constructor
  · intro db id u db2 r h
    by_cases hm : blockUpdateMap u = []
    · unfold update_block at h
      rw [if_pos hm] at h
      simp [Prod.ext_iff] at h
    · unfold update_block at h
      rw [if_neg hm] at h
      cases hv : ensure_object_id id with
      | error e =>
        rw [hv] at h
        simp [Prod.ext_iff] at h
      | ok oid =>
        rw [hv] at h
        simp only [updateOneBlock] at h
        cases hu2 : (updateFirstWith (fun b => b.id == oid)
            (applyUpdateBlock u) db.blocks).2 with
        | false =>
          rw [hu2] at h
          simp [Prod.ext_iff] at h
        | true =>
          rw [hu2] at h
          simp only [Bool.true_eq_false, if_false, findBlock, bump,
            Prod.mk.injEq, Except.ok.injEq, UpdateResult.record.injEq] at h
          obtain ⟨hdb2, hr⟩ := h
          obtain ⟨l1, b, l2, hl, hnone, hb, hfst⟩ := updateFirstWith_snd_true hu2
          refine ⟨l1, b, l2, hl, ?_, ?_, ?_, ?_, applyUpdateBlock_id u b,
            applyUpdateBlock_page_id u b, applyUpdateBlock_type u b,
            applyUpdateBlock_content_none b, applyUpdateBlock_checked_none b,
            applyUpdateBlock_position_none b⟩
          · rw [← hdb2]
            exact hfst
          · rw [← hdb2]
          · rw [← hdb2]
          · rw [← hr, hfst, List.find?_append]
            have h1 : l1.find? (fun x => x.id == oid) = none := by
              rw [List.find?_eq_none]
              intro y hy
              simp [hnone y hy]
            have h2 : ((applyUpdateBlock u b).id == oid) = true := by
              rw [applyUpdateBlock_id u b]
              exact hb
            rw [h1]
            simp [List.find?_cons, h2]
  · intro db id up db2 r h
    by_cases hm : pageUpdateMap up = []
    · unfold update_page at h
      rw [if_pos hm] at h
      simp [Prod.ext_iff] at h
    · unfold update_page at h
      rw [if_neg hm] at h
      cases hv : ensure_object_id id with
      | error e =>
        rw [hv] at h
        simp [Prod.ext_iff] at h
      | ok oid =>
        rw [hv] at h
        simp only [updateOnePage] at h
        cases hu2 : (updateFirstWith (fun p => p.id == oid)
            (applyUpdatePage up) db.pages).2 with
        | false =>
          rw [hu2] at h
          simp [Prod.ext_iff] at h
        | true =>
          rw [hu2] at h
          simp only [Bool.true_eq_false, if_false, findPage, bump,
            Prod.mk.injEq, Except.ok.injEq, UpdateResult.record.injEq] at h
          obtain ⟨hdb2, hr⟩ := h
          obtain ⟨l1, p, l2, hl, hnone, hp, hfst⟩ := updateFirstWith_snd_true hu2
          refine ⟨l1, p, l2, hl, ?_, ?_, ?_, ?_, applyUpdatePage_id up p,
            applyUpdatePage_workspace_id up p, applyUpdatePage_title_none p⟩
          · rw [← hdb2]
            exact hfst
          · rw [← hdb2]
          · rw [← hdb2]
          · rw [← hr, hfst, List.find?_append]
            have h1 : l1.find? (fun x => x.id == oid) = none := by
              rw [List.find?_eq_none]
              intro y hy
              simp [hnone y hy]
            have h2 : ((applyUpdatePage up p).id == oid) = true := by
              rw [applyUpdatePage_id up p]
              exact hp
            rw [h1]
            simp [List.find?_cons, h2]

/-- Witness for C7: a concrete one-field update (checked := false) on a
one-Block store — the update succeeds and the frame decomposition holds. -/
theorem update_frame_witness :
    update_block ⟨[], [], [⟨"aaaaaaaaaaaaaaaaaaaaaaaa", "p", "text", "c", some true, 5⟩], 0⟩
        "aaaaaaaaaaaaaaaaaaaaaaaa"
        { content := none, checked := some false, position := none } =
      (⟨[], [], [⟨"aaaaaaaaaaaaaaaaaaaaaaaa", "p", "text", "c", some false, 5⟩], 2⟩,
       .ok (.record (some ⟨"aaaaaaaaaaaaaaaaaaaaaaaa", "p", "text", "c", some false, 5⟩))) ∧
    (∃ l1 b l2,
      ([⟨"aaaaaaaaaaaaaaaaaaaaaaaa", "p", "text", "c", some true, 5⟩] : List Block) =
        l1 ++ b :: l2 ∧
      ([⟨"aaaaaaaaaaaaaaaaaaaaaaaa", "p", "text", "c", some false, 5⟩] : List Block) =
        l1 ++ applyUpdateBlock
          { content := none, checked := some false, position := none } b :: l2 ∧
      ([] : List Page) = [] ∧
      ([] : List Workspace) = [] ∧
      (some (⟨"aaaaaaaaaaaaaaaaaaaaaaaa", "p", "text", "c", some false, 5⟩ : Block)) =
        some (applyUpdateBlock
          { content := none, checked := some false, position := none } b) ∧
      (applyUpdateBlock { content := none, checked := some false, position := none } b).id =
        b.id ∧
      (applyUpdateBlock { content := none, checked := some false, position := none } b).page_id =
        b.page_id ∧
      (applyUpdateBlock { content := none, checked := some false, position := none } b).type =
        b.type ∧
      (({ content := none, checked := some false, position := none } : UpdateBlock).content =
          none →
        (applyUpdateBlock { content := none, checked := some false, position := none } b).content =
          b.content) ∧
      (({ content := none, checked := some false, position := none } : UpdateBlock).checked =
          none →
        (applyUpdateBlock { content := none, checked := some false, position := none } b).checked =
          b.checked) ∧
      (({ content := none, checked := some false, position := none } : UpdateBlock).position =
          none →
        (applyUpdateBlock { content := none, checked := some false, position := none } b).position =
          b.position)) :=
  ⟨by rfl,
   update_frame.1
     ⟨[], [], [⟨"aaaaaaaaaaaaaaaaaaaaaaaa", "p", "text", "c", some true, 5⟩], 0⟩
     "aaaaaaaaaaaaaaaaaaaaaaaa"
     { content := none, checked := some false, position := none }
     ⟨[], [], [⟨"aaaaaaaaaaaaaaaaaaaaaaaa", "p", "text", "c", some false, 5⟩], 2⟩
     (some ⟨"aaaaaaaaaaaaaaaaaaaaaaaa", "p", "text", "c", some false, 5⟩)
     (by rfl)⟩

/-- One step never invents or mutates a Block's immutable fields: the
resulting Blocks' (id, page_id, type) triples form a sublist of the
previous triples followed by the triple the step may have created. -/
theorem step_blockSkels (db : DB) (op : Op) :
    List.Sublist ((step db op).blocks.map blockSkel)
      ((db.blocks.map blockSkel) ++ createdBlockSkels [op]) := by
  cases op with
  | createWorkspace newId p =>
    have h2 : createdBlockSkels [Op.createWorkspace newId p] = [] := rfl
    rw [h2, List.append_nil]
    exact List.Sublist.refl _
  | listWorkspaces =>
    have hc : createdBlockSkels [Op.listWorkspaces] = [] := rfl
    rw [hc, List.append_nil]
    exact List.Sublist.refl _
  | listPages w =>
    have hc : createdBlockSkels [Op.listPages w] = [] := rfl
    rw [hc, List.append_nil]
    have h : (step db (Op.listPages w)).blocks = db.blocks := by
      cases w with
      | none => rfl
      | some s =>
        simp only [step, list_pages]
        split <;> rfl
    rw [h]
  | listBlocks pid =>
    have hc : createdBlockSkels [Op.listBlocks pid] = [] := rfl
    rw [hc, List.append_nil]
    exact List.Sublist.refl _
  | createPage newId p =>
    have hc : createdBlockSkels [Op.createPage newId p] = [] := rfl
    rw [hc, List.append_nil]
    have h : (step db (.createPage newId p)).blocks = db.blocks := by
      simp only [step, create_page]
      split
      · rfl
      · split <;> rfl
    rw [h]
  | updatePage id u =>
    have hc : createdBlockSkels [Op.updatePage id u] = [] := rfl
    rw [hc, List.append_nil]
    have h : (step db (.updatePage id u)).blocks = db.blocks := by
      simp only [step, update_page]
      split
      · rfl
      · split
        · rfl
        · split <;> rfl
    rw [h]
  | deletePage id =>
    have hc : createdBlockSkels [Op.deletePage id] = [] := rfl
    rw [hc, List.append_nil]
    simp only [step, delete_page]
    split
    · exact List.Sublist.refl _
    · split <;> exact List.Sublist.map _ (List.filter_sublist _)
  | createBlock newId p =>
    simp only [step, create_block]
    split
    · exact List.sublist_append_left _ _
    · split
      · exact List.sublist_append_left _ _
      · have hc : createdBlockSkels [Op.createBlock newId p] =
            [(newId, p.page_id, p.type)] := rfl
        rw [hc]
        simp only [insertBlock, bump, List.map_append]
        exact List.Sublist.refl _
  | updateBlock id u =>
    have hc : createdBlockSkels [Op.updateBlock id u] = [] := rfl
    rw [hc, List.append_nil]
    have hg : ∀ x, blockSkel (applyUpdateBlock u x) = blockSkel x := by
      intro x
      simp [blockSkel, applyUpdateBlock_id, applyUpdateBlock_page_id,
        applyUpdateBlock_type]
    have h : ((step db (.updateBlock id u)).blocks).map blockSkel =
        db.blocks.map blockSkel := by
      simp only [step, update_block]
      split
      · rfl
      · split
        · rfl
        · split
          · simp only [updateOneBlock]
            exact updateFirstWith_fst_map blockSkel hg db.blocks
          · simp only [updateOneBlock, findBlock, bump]
            exact updateFirstWith_fst_map blockSkel hg db.blocks
    rw [h]
  | deleteBlock id =>
    have hc : createdBlockSkels [Op.deleteBlock id] = [] := rfl
    rw [hc, List.append_nil]
    simp only [step, delete_block]
    split
    · exact List.Sublist.refl _
    · split <;> exact List.Sublist.map _ (deleteFirstWith_fst_sublist _ _)

/-- One step never invents or mutates a Page's immutable fields. -/
theorem step_pageSkels (db : DB) (op : Op) :
    List.Sublist ((step db op).pages.map pageSkel)
      ((db.pages.map pageSkel) ++ createdPageSkels [op]) := by
  cases op with
  | createWorkspace newId p =>
    have hc : createdPageSkels [Op.createWorkspace newId p] = [] := rfl
    rw [hc, List.append_nil]
    exact List.Sublist.refl _
  | listWorkspaces =>
    have hc : createdPageSkels [Op.listWorkspaces] = [] := rfl
    rw [hc, List.append_nil]
    exact List.Sublist.refl _
  | listPages w =>
    have hc : createdPageSkels [Op.listPages w] = [] := rfl
    rw [hc, List.append_nil]
    have h : (step db (Op.listPages w)).pages = db.pages := by
      cases w with
      | none => rfl
      | some s =>
        simp only [step, list_pages]
        split <;> rfl
    rw [h]
  | listBlocks pid =>
    have hc : createdPageSkels [Op.listBlocks pid] = [] := rfl
    rw [hc, List.append_nil]
    exact List.Sublist.refl _
  | createPage newId p =>
    simp only [step, create_page]
    split
    · exact List.sublist_append_left _ _
    · split
      · exact List.sublist_append_left _ _
      · have hc : createdPageSkels [Op.createPage newId p] =
            [(newId, p.workspace_id)] := rfl
        rw [hc]
        simp only [insertPage, bump, List.map_append]
        exact List.Sublist.refl _
  | updatePage id u =>
    have hc : createdPageSkels [Op.updatePage id u] = [] := rfl
    rw [hc, List.append_nil]
    have hg : ∀ x, pageSkel (applyUpdatePage u x) = pageSkel x := by
      intro x
      simp [pageSkel, applyUpdatePage_id, applyUpdatePage_workspace_id]
    have h : ((step db (.updatePage id u)).pages).map pageSkel =
        db.pages.map pageSkel := by
      simp only [step, update_page]
      split
      · rfl
      · split
        · rfl
        · split
          · simp only [updateOnePage]
            exact updateFirstWith_fst_map pageSkel hg db.pages
          · simp only [updateOnePage, findPage, bump]
            exact updateFirstWith_fst_map pageSkel hg db.pages
    rw [h]
  | deletePage id =>
    have hc : createdPageSkels [Op.deletePage id] = [] := rfl
    rw [hc, List.append_nil]
    simp only [step, delete_page]
    split
    · exact List.Sublist.refl _
    · split <;>
        · simp only [deleteOnePage, deleteManyBlocks, bump]
          exact List.Sublist.map _ (deleteFirstWith_fst_sublist _ _)
  | createBlock newId p =>
    have hc : createdPageSkels [Op.createBlock newId p] = [] := rfl
    rw [hc, List.append_nil]
    have h : (step db (.createBlock newId p)).pages = db.pages := by
      simp only [step, create_block]
      split
      · rfl
      · split <;> rfl
    rw [h]
  | updateBlock id u =>
    have hc : createdPageSkels [Op.updateBlock id u] = [] := rfl
    rw [hc, List.append_nil]
    have h : (step db (.updateBlock id u)).pages = db.pages := by
      simp only [step, update_block]
      split
      · rfl
      · split
        · rfl
        · split <;> rfl
    rw [h]
  | deleteBlock id =>
    have hc : createdPageSkels [Op.deleteBlock id] = [] := rfl
    rw [hc, List.append_nil]
    have h : (step db (.deleteBlock id)).pages = db.pages := by
      simp only [step, delete_block]
      split
      · rfl
      · split <;> rfl
    rw [h]

/-- Splitting the created-Block triples of a sequence at its head. -/
theorem createdBlockSkels_cons (op : Op) (ops : List Op) :
    createdBlockSkels (op :: ops) = createdBlockSkels [op] ++ createdBlockSkels ops := by
  cases op <;> rfl

/-- Splitting the created-Page pairs of a sequence at its head. -/
theorem createdPageSkels_cons (op : Op) (ops : List Op) :
    createdPageSkels (op :: ops) = createdPageSkels [op] ++ createdPageSkels ops := by
  cases op <;> rfl

/-- Over a whole run, the Blocks' immutable-field triples form a sublist
of the initial triples followed by the created ones. -/
theorem run_blockSkels (ops : List Op) : ∀ (db : DB),
    List.Sublist ((run db ops).blocks.map blockSkel)
      ((db.blocks.map blockSkel) ++ createdBlockSkels ops) := by
  induction ops with
  | nil =>
    intro db
    have hc : createdBlockSkels [] = [] := rfl
    rw [hc, List.append_nil]
    exact List.Sublist.refl _
  | cons op ops ih =>
    intro db
    have h1 := step_blockSkels db op
    have h2 := ih (step db op)
    have h3 : List.Sublist
        (((step db op).blocks.map blockSkel) ++ createdBlockSkels ops)
        (((db.blocks.map blockSkel) ++ createdBlockSkels [op]) ++ createdBlockSkels ops) :=
      List.Sublist.append h1 (List.Sublist.refl _)
    have h4 := h2.trans h3
    rw [List.append_assoc, ← createdBlockSkels_cons] at h4
    exact h4

/-- Over a whole run, the Pages' immutable-field pairs form a sublist of
the initial pairs followed by the created ones. -/
theorem run_pageSkels (ops : List Op) : ∀ (db : DB),
    List.Sublist ((run db ops).pages.map pageSkel)
      ((db.pages.map pageSkel) ++ createdPageSkels ops) := by
  induction ops with
  | nil =>
    intro db
    have hc : createdPageSkels [] = [] := rfl
    rw [hc, List.append_nil]
    exact List.Sublist.refl _
  | cons op ops ih =>
    intro db
    have h1 := step_pageSkels db op
    have h2 := ih (step db op)
    have h3 : List.Sublist
        (((step db op).pages.map pageSkel) ++ createdPageSkels ops)
        (((db.pages.map pageSkel) ++ createdPageSkels [op]) ++ createdPageSkels ops) :=
      List.Sublist.append h1 (List.Sublist.refl _)
    have h4 := h2.trans h3
    rw [List.append_assoc, ← createdPageSkels_cons] at h4
    exact h4

/-- C8: no operation of the API ever changes a Page's `workspace_id` or a
Block's `page_id` or `type` after creation — over any run the surviving
immutable-field projections form a sublist of the initial plus created
ones, and (under distinctness of all ids involved) every surviving Block
keeps its original `page_id` and `type`, every surviving Page its
original `workspace_id`. -/
theorem parent_refs_immutable (db : DB) (ops : List Op) :
    List.Sublist ((run db ops).blocks.map blockSkel)
      ((db.blocks.map blockSkel) ++ createdBlockSkels ops) ∧
    List.Sublist ((run db ops).pages.map pageSkel)
      ((db.pages.map pageSkel) ++ createdPageSkels ops) ∧
    ((((db.blocks.map blockSkel) ++ createdBlockSkels ops).map Prod.fst).Nodup →
      ∀ b ∈ db.blocks, ∀ b2 ∈ (run db ops).blocks, b2.id = b.id →
        b2.page_id = b.page_id ∧ b2.type = b.type) ∧
    ((((db.pages.map pageSkel) ++ createdPageSkels ops).map Prod.fst).Nodup →
      ∀ p ∈ db.pages, ∀ p2 ∈ (run db ops).pages, p2.id = p.id →
        p2.workspace_id = p.workspace_id) := by
  refine ⟨run_blockSkels ops db, run_pageSkels ops db, ?_, ?_⟩
  · intro hnd b hb b2 hb2
    intro hid
    have hm2 : blockSkel b2 ∈ (db.blocks.map blockSkel) ++ createdBlockSkels ops :=
      (run_blockSkels ops db).subset (List.mem_map_of_mem blockSkel hb2)
    have hm1 : blockSkel b ∈ (db.blocks.map blockSkel) ++ createdBlockSkels ops :=
      List.mem_append_left _ (List.mem_map_of_mem blockSkel hb)
    have hfst : Prod.fst (blockSkel b2) = Prod.fst (blockSkel b) := by
      simp [blockSkel, hid]
    have heq := List.inj_on_of_nodup_map hnd hm2 hm1 hfst
    simp only [blockSkel, Prod.mk.injEq] at heq
    exact ⟨heq.2.1, heq.2.2⟩
  · intro hnd p hp p2 hp2
    intro hid
    have hm2 : pageSkel p2 ∈ (db.pages.map pageSkel) ++ createdPageSkels ops :=
      (run_pageSkels ops db).subset (List.mem_map_of_mem pageSkel hp2)
    have hm1 : pageSkel p ∈ (db.pages.map pageSkel) ++ createdPageSkels ops :=
      List.mem_append_left _ (List.mem_map_of_mem pageSkel hp)
    have hfst : Prod.fst (pageSkel p2) = Prod.fst (pageSkel p) := by
      simp [pageSkel, hid]
    have heq := List.inj_on_of_nodup_map hnd hm2 hm1 hfst
    simp only [pageSkel, Prod.mk.injEq] at heq
    exact heq.2

/-- Witness for C8: a run consisting of a Block update and a Page update
on a one-Block, one-Page store — the surviving Block keeps its `page_id`
and `type`. -/
theorem parent_refs_immutable_witness :
    ((((([⟨"aaaaaaaaaaaaaaaaaaaaaaaa", "p", "text", "c", some false, 0⟩] : List Block).map
          blockSkel) ++
        createdBlockSkels
          [.updateBlock "aaaaaaaaaaaaaaaaaaaaaaaa" ⟨some "z", none, none⟩,
           .updatePage "bbbbbbbbbbbbbbbbbbbbbbbb" ⟨some "U"⟩]).map Prod.fst).Nodup) ∧
    ((⟨"aaaaaaaaaaaaaaaaaaaaaaaa", "p", "text", "c", some false, 0⟩ : Block) ∈
      ([⟨"aaaaaaaaaaaaaaaaaaaaaaaa", "p", "text", "c", some false, 0⟩] : List Block)) ∧
    ((⟨"aaaaaaaaaaaaaaaaaaaaaaaa", "p", "text", "z", some false, 0⟩ : Block) ∈
      (run ⟨[], [⟨"bbbbbbbbbbbbbbbbbbbbbbbb", "w", some "T"⟩],
            [⟨"aaaaaaaaaaaaaaaaaaaaaaaa", "p", "text", "c", some false, 0⟩], 0⟩
          [.updateBlock "aaaaaaaaaaaaaaaaaaaaaaaa" ⟨some "z", none, none⟩,
           .updatePage "bbbbbbbbbbbbbbbbbbbbbbbb" ⟨some "U"⟩]).blocks) ∧
    ((⟨"aaaaaaaaaaaaaaaaaaaaaaaa", "p", "text", "z", some false, 0⟩ : Block).page_id =
        (⟨"aaaaaaaaaaaaaaaaaaaaaaaa", "p", "text", "c", some false, 0⟩ : Block).page_id ∧
      (⟨"aaaaaaaaaaaaaaaaaaaaaaaa", "p", "text", "z", some false, 0⟩ : Block).type =
        (⟨"aaaaaaaaaaaaaaaaaaaaaaaa", "p", "text", "c", some false, 0⟩ : Block).type) :=
  ⟨by decide, by decide, by decide,
   (parent_refs_immutable
      ⟨[], [⟨"bbbbbbbbbbbbbbbbbbbbbbbb", "w", some "T"⟩],
       [⟨"aaaaaaaaaaaaaaaaaaaaaaaa", "p", "text", "c", some false, 0⟩], 0⟩
      [.updateBlock "aaaaaaaaaaaaaaaaaaaaaaaa" ⟨some "z", none, none⟩,
       .updatePage "bbbbbbbbbbbbbbbbbbbbbbbb" ⟨some "U"⟩]).2.2.1
     (by decide)
     ⟨"aaaaaaaaaaaaaaaaaaaaaaaa", "p", "text", "c", some false, 0⟩ (by decide)
     ⟨"aaaaaaaaaaaaaaaaaaaaaaaa", "p", "text", "z", some false, 0⟩ (by decide)
     rfl⟩
